import Mathlib

/-!
# Queue-based RPC over RabbitMQ: client, Fibonacci server, configurable server

A shallow embedding of the RPC-related Go programs of the repository

* `rabbitmq-rpc/cmd/rpc_client/main.go`  (the client, `fibonacciRPC`),
* `rabbitmq-rpc/cmd/rpc_server/main.go`  (the Fibonacci server),
* `rpc-server/config.go`, `rpc-server/main.go` (the configurable server),

followed by theorems about them.

Modelling conventions.

* A Go `string` / `[]byte` is a Lean `String`; `==` on Go strings is equality
  of the character sequences (case-sensitive, nothing is normalised).
* A Go `int` is a Lean `Int` in the range `[-2^63, 2^63)`; arithmetic that can
  leave the range is wrapped with `wrapInt64`.
* `time.Duration` is an `Int` number of nanoseconds.
* The broker (amqp091) is an external collaborator.  A delivery stream
  (`<-chan amqp.Delivery`) that is eventually closed is a finite `List`; what
  the program asks of the broker (`Publish`, `Ack`, `Nack`) is recorded as a
  trace of `Effect`s; what the broker answers (the error of a publish) is an
  input of the model.
* `log.Panicf` ends the goroutine with a panic, `log.Fatalf` ends the process;
  both are explicit outcomes.
-/

namespace RabbitRPC

/-! ## Library functions used by the programs: `strconv.Itoa`, `strconv.Atoi` -/

/-- Smallest value of a 64-bit Go `int`. -/
def minInt64 : Int := -9223372036854775808

/-- Largest value of a 64-bit Go `int`. -/
def maxInt64 : Int := 9223372036854775807

/-- Two's-complement wrap-around of a mathematical integer into the range of a 64-bit `int`. -/
def wrapInt64 (x : Int) : Int := (x + 9223372036854775808) % 18446744073709551616 - 9223372036854775808

/-- Digit loop of `strconv.FormatInt` in base 10: the least significant digit is
produced first and put in front of what is already there.  The first argument bounds
the number of iterations; `formatUint` starts it with a bound that is never reached. -/
def formatBits : Nat → Nat → List Char → List Char
  | 0, u, a => Nat.digitChar u :: a
  | fuel + 1, u, a =>
    if 10 ≤ u then formatBits fuel (u / 10) (Nat.digitChar (u % 10) :: a)
    else Nat.digitChar u :: a

/-- Decimal digits of a natural number, most significant first, no leading zero. -/
def formatUint (u : Nat) : List Char := formatBits u u []

/-- The function `strconv.Itoa`: a minus sign for a negative number, then the decimal digits of
the absolute value. -/
def Itoa (i : Int) : String :=
  if i < 0 then String.mk ('-' :: formatUint i.natAbs) else String.mk (formatUint i.natAbs)

/-- Value of a decimal digit character, `none` for any other character
(`ch -= 48; ch > 9` in `strconv`). -/
def digitVal (c : Char) : Option Nat :=
  if 48 ≤ c.toNat ∧ c.toNat ≤ 57 then some (c.toNat - 48) else none

/-- Digit loop of `strconv.ParseUint` in base 10, without the range check (done by `Atoi`):
`none` as soon as a character is not a decimal digit. -/
def parseDigits : List Char → Nat → Option Nat
  | [], n => some n
  | c :: cs, n =>
    match digitVal c with
    | none => none
    | some d => parseDigits cs (n * 10 + d)

/-- The function `strconv.Atoi` on a 64-bit platform: an optional sign, then at least one
decimal digit and nothing else; the value has to fit a 64-bit `int`.  `none` stands for a
non-nil `*strconv.NumError` (bad form or out of range), `some n` for `(n, nil)`. -/
def Atoi (s : String) : Option Int :=
  match s.data with
  | [] => none
  | c :: cs =>
    let neg : Bool := c == '-'
    let ds : List Char := if c == '+' || c == '-' then cs else c :: cs
    if ds.isEmpty then none
    else
      match parseDigits ds 0 with
      | none => none
      | some un =>
        if neg then
          if 9223372036854775808 < un then none else some (-(un : Int))
        else
          if 9223372036854775808 ≤ un then none else some (un : Int)

/-! ## Messages -/

/-- The fields of `amqp.Delivery` the programs read. -/
structure Delivery where
  CorrelationId : String
  ReplyTo : String
  Body : String
deriving DecidableEq, Repr

/-- The fields of `amqp.Publishing` the programs set. -/
structure Publishing where
  ContentType : String
  CorrelationId : String
  ReplyTo : String
  Body : String
deriving DecidableEq, Repr

/-- What a program asks of its environment, in program order. -/
inductive Effect where
  /-- `ch.Publish(exchange, key, mandatory, immediate, msg)` -/
  | publish (exchange key : String) (mandatory immediate : Bool) (msg : Publishing)
  /-- `d.Ack(multiple)` -/
  | ack (d : Delivery) (multiple : Bool)
  /-- `d.Nack(multiple, requeue)` -/
  | nack (d : Delivery) (multiple requeue : Bool)
  /-- `workerPool <- struct` : one permit goes back to the pool -/
  | release
  /-- a line written with `log.Printf` -/
  | log (line : String)
deriving DecidableEq, Repr

/-- Log lines are diagnostics; every other effect acts on the broker or on the permit pool. -/
def Effect.isLog : Effect → Bool
  | .log _ => true
  | _ => false

/-- The effects of a trace that act on the broker or on the permit pool. -/
def actions (trace : List Effect) : List Effect := trace.filter (fun e => !e.isLog)

/-! ## The client: `rabbitmq-rpc/cmd/rpc_client/main.go` -/

/-- How a call of `fibonacciRPC` ends: it returns its pair `(res, err)`, where `err = none`
is Go's `nil`, or `failOnError` panics with the given message. -/
inductive CallResult where
  | returned (res : Int) (err : Option String)
  | panicked (msg : String)
deriving DecidableEq, Repr

/-- The receive loop of `fibonacciRPC` (lines 88-97), for the correlation id `corrId` drawn
before the request was published and the deliveries `msgs` that arrive on the reply queue
before the channel is closed.  The steps before the loop (dial, declare, consume, publish)
are the broker's and are taken to have succeeded. -/
def fibonacciRPC (corrId : String) : List Delivery → CallResult
  | [] => .returned 0 none
  | d :: msgs =>
    if corrId = d.CorrelationId then
      match Atoi d.Body with
      | some res => .returned res none
      | none => .panicked "Failed to convert body to integer"
    else fibonacciRPC corrId msgs

/-- The random source `math/rand` as the client sees it: `src i k` is what the `i`-th call
of the run, `rand.Intn(k)`, returns. -/
abbrev RandSource := Nat → Int → Int

/-- The contract of `rand.Intn`: a call with a positive bound `k` returns a value of `[0, k)`. -/
def ValidSource (src : RandSource) : Prop := ∀ (i : Nat) (k : Int), 0 < k → 0 ≤ src i k ∧ src i k < k

/-- The source whose `i`-th call returns `choice i`, reduced into the range of the bound. -/
def fixedSource (choice : Nat → Nat) : RandSource := fun i k => (choice i : Int) % k

/-- The function `randInt` (lines 30-32); `intn` is the call of `rand.Intn` it makes. -/
def randInt (intn : Int → Int) (min max : Int) : Int :=
  wrapInt64 (min + intn (wrapInt64 (max - min)))

/-- The conversion `byte(x)` of an `int`: its value modulo 256. -/
def byte (x : Int) : Nat := (x % 256).toNat

/-- The function `randomString` (lines 22-28) for a length `l ≥ 0`: byte `i` is made from the
`i`-th call of the random source.  The bytes it is used with are below 128, where the
conversion `string(bytes)` gives one character per byte. -/
def randomString (src : RandSource) (l : Nat) : String :=
  String.mk ((List.range l).map (fun i => Char.ofNat (byte (randInt (src i) 65 90))))

/-! ## The Fibonacci server: `rabbitmq-rpc/cmd/rpc_server/main.go` -/

/-- The recursive function `fib` (lines 18-27) on 64-bit `int`s.  The first argument is the
depth of recursion the goroutine's stack allows: `none` is the fatal stack overflow of a
recursion that goes deeper (every negative `n` within any realistic depth), `some r` is the
returned value. -/
def fib : Nat → Int → Option Int
  | 0, _ => none
  | stack + 1, n =>
    if n = 0 then some 0
    else if n = 1 then some 1
    else
      match fib stack (wrapInt64 (n - 1)), fib stack (wrapInt64 (n - 2)) with
      | some a, some b => some (wrapInt64 (a + b))
      | _, _ => none

/-- How the consume loop of the Fibonacci server ends. -/
inductive LoopEnd where
  /-- the delivery channel was closed and the `range` loop ran to its end -/
  | drained
  /-- `failOnError` called `log.Panicf`; the panic is not recovered, the process dies -/
  | panicked (msg : String)
  /-- the recursion of `fib` exhausted the stack; the process dies -/
  | stackOverflow
deriving DecidableEq, Repr

/-- The `for d := range msgs` loop of the Fibonacci server (lines 76-99).  Every delivery
comes with the broker's answer to the publish made for it (`none` is a nil error).  The
result is the trace of effects and the way the loop ended. -/
def consumeLoop (stack : Nat) : List (Delivery × Option String) → List Effect × LoopEnd
  | [] => ([], .drained)
  | (d, publishErr) :: rest =>
    match Atoi d.Body with
    | none => ([], .panicked "Failed to convert body to integer")
    | some n =>
      match fib stack n with
      | none => ([.log (" [.] fib(" ++ Itoa n ++ ")")], .stackOverflow)
      | some response =>
        let reply : Publishing :=
          { ContentType := "text/plain", CorrelationId := d.CorrelationId, ReplyTo := "",
            Body := Itoa response }
        match publishErr with
        | some _ =>
          ([.log (" [.] fib(" ++ Itoa n ++ ")"), .publish "" d.ReplyTo false false reply],
            .panicked "Failed to publish a message")
        | none =>
          (.log (" [.] fib(" ++ Itoa n ++ ")") :: .publish "" d.ReplyTo false false reply ::
              .ack d false :: (consumeLoop stack rest).1,
            (consumeLoop stack rest).2)

/-! ## The configurable server: `rpc-server/config.go` -/

/-- One second as a `time.Duration`. -/
def Second : Int := 1000000000

/-- One millisecond as a `time.Duration`. -/
def Millisecond : Int := 1000000

/-- An `amqp091.Table`: `none` is the nil map, `some []` the empty map. -/
abbrev Table := Option (List (String × String))

/-- The anonymous struct of the field `RPCConfig.RabbitMQ`, at Go's zero value by default. -/
structure RabbitMQSection where
  Username : String := ""
  Password : String := ""
  Host : String := ""
  Port : Int := 0
  VHost : String := ""
  Heartbeat : Int := 0
  Timeout : Int := 0
  UseTLS : Bool := false
  TLSConfig : Option Unit := none
  MaxReconnect : Int := 0
  ReconnectDelay : Int := 0
deriving DecidableEq, Repr

/-- The anonymous struct of the field `RPCConfig.Queue`. -/
structure QueueSection where
  Name : String := ""
  Durable : Bool := false
  AutoDelete : Bool := false
  Exclusive : Bool := false
  NoWait : Bool := false
  Arguments : Table := none
deriving DecidableEq, Repr

/-- The anonymous struct of the field `RPCConfig.Consumer`. -/
structure ConsumerSection where
  Tag : String := ""
  AutoAck : Bool := false
  Exclusive : Bool := false
  NoLocal : Bool := false
  NoWait : Bool := false
  Args : Table := none
deriving DecidableEq, Repr

/-- The anonymous struct of the field `RPCConfig.QoS`. -/
structure QoSSection where
  PrefetchCount : Int := 0
  PrefetchSize : Int := 0
  Global : Bool := false
deriving DecidableEq, Repr

/-- The anonymous struct of the field `RPCConfig.RPC`. -/
structure RPCSection where
  MaxWorkers : Int := 0
  ProcessTimeout : Int := 0
  MaxRetries : Int := 0
  RetryDelay : Int := 0
  LogLevel : String := ""
  EnableMetrics : Bool := false
  MetricsPort : Int := 0
deriving DecidableEq, Repr

/-- The struct `RPCConfig` (lines 13-66); the default of every field is its zero value, so
`({} : RPCConfig)` is Go's `&RPCConfig{}`. -/
structure RPCConfig where
  RabbitMQ : RabbitMQSection := {}
  Queue : QueueSection := {}
  Consumer : ConsumerSection := {}
  QoS : QoSSection := {}
  RPC : RPCSection := {}
deriving DecidableEq, Repr

/-- The function `DefaultRPCConfig` (lines 69-112): the zero value `&RPCConfig{}` with the
fields assigned in the body.  The body assigns the three `QoS` fields twice (two blocks
under the comment `// QoS Defaults`, same values) and assigns no field of the section `RPC`,
which keeps its zero value. -/
def DefaultRPCConfig : RPCConfig :=
  { RabbitMQ :=
      { Username := "guest", Password := "guest", Host := "localhost", Port := 5672,
        VHost := "/", Heartbeat := 10 * Second, Timeout := 30 * Second, UseTLS := false,
        MaxReconnect := 5, ReconnectDelay := 2 * Second },
    Queue :=
      { Name := "rpc_queue", Durable := false, AutoDelete := false, Exclusive := false,
        NoWait := false, Arguments := some [] },
    Consumer :=
      { Tag := "rpc_server", AutoAck := false, Exclusive := false, NoLocal := false,
        NoWait := false, Args := none },
    QoS := { PrefetchCount := 1, PrefetchSize := 0, Global := false } }

/-- The function `DevelopmentRPCConfig` (lines 115-122). -/
def DevelopmentRPCConfig : RPCConfig :=
  let config := DefaultRPCConfig
  { config with
    QoS := { config.QoS with PrefetchCount := 5 },
    RPC := { config.RPC with LogLevel := "debug", MaxWorkers := 5,
                             ProcessTimeout := 30 * Second } }

/-- The function `ProductionRPCConfig` (lines 125-137). -/
def ProductionRPCConfig : RPCConfig :=
  let config := DefaultRPCConfig
  { config with
    Queue := { config.Queue with Durable := true },
    QoS := { config.QoS with PrefetchCount := 10 },
    RPC := { config.RPC with MaxWorkers := 100, ProcessTimeout := 10 * Second,
                             MaxRetries := 5, EnableMetrics := true, LogLevel := "warn" },
    RabbitMQ := { config.RabbitMQ with MaxReconnect := 10, ReconnectDelay := 5 * Second } }

/-- The function `HighPerformanceRPCConfig` (lines 140-148). -/
def HighPerformanceRPCConfig : RPCConfig :=
  let config := ProductionRPCConfig
  { config with
    QoS := { config.QoS with PrefetchCount := 100 },
    RPC := { config.RPC with MaxWorkers := 500, ProcessTimeout := 2 * Second },
    Queue := { config.Queue with Durable := false, AutoDelete := true } }

/-- The function `LowLatencyRPCConfig` (lines 151-158). -/
def LowLatencyRPCConfig : RPCConfig :=
  let config := DefaultRPCConfig
  { config with
    QoS := { config.QoS with PrefetchCount := 1 },
    RPC := { config.RPC with ProcessTimeout := 500 * Millisecond },
    RabbitMQ := { config.RabbitMQ with Heartbeat := 5 * Second, Timeout := 5 * Second } }

/-- The method `GetConnectionURL` (lines 161-175); `%d` prints the port as `strconv.Itoa`. -/
def RPCConfig.GetConnectionURL (c : RPCConfig) : String :=
  let scheme := if c.RabbitMQ.UseTLS then "amqps" else "amqp"
  scheme ++ "://" ++ c.RabbitMQ.Username ++ ":" ++ c.RabbitMQ.Password ++ "@" ++
    c.RabbitMQ.Host ++ ":" ++ Itoa c.RabbitMQ.Port ++ c.RabbitMQ.VHost

/-- The method `Validate` (lines 178-195): `none` is the nil error, `some msg` the error made
by `fmt.Errorf(msg)`. -/
def RPCConfig.Validate (c : RPCConfig) : Option String :=
  if c.RabbitMQ.Username = "" then some "RabbitMQ username cannot be empty"
  else if c.RabbitMQ.Host = "" then some "RabbitMQ host cannot be empty"
  else if c.RabbitMQ.Port = 0 then some "RabbitMQ port cannot be 0"
  else if c.Queue.Name = "" then some "queue name cannot be empty"
  else if c.RPC.MaxWorkers ≤ 0 then some "MaxWorkers must be positive"
  else none

/-! ## The configurable server: `rpc-server/main.go` -/

/-- The `switch env` of `main` (lines 15-28): the selected configuration and the line that is
logged with it. -/
def selectConfig (env : String) : RPCConfig × String :=
  if env = "production" then (ProductionRPCConfig, "Using PRODUCTION configuration")
  else if env = "development" then (DevelopmentRPCConfig, "Using DEVELOPMENT configuration")
  else (DefaultRPCConfig, "Using DEFAULT configuration")

/-- A rule of `n` equals signs, as in the banner lines that `main` logs. -/
def rule (n : Nat) : String := String.mk (List.replicate n (Char.ofNat 61))

/-- What `main` does at startup, in program order. -/
inductive StartupEvent where
  /-- a line written with `log.Println` or `log.Printf` -/
  | log (line : String)
  /-- `log.Fatalf`: the line is written and the process exits with status 1 -/
  | fatal (line : String)
  /-- `amqp091.Dial(url)`: the first contact with the broker -/
  | dial (url : String)
deriving DecidableEq, Repr

/-- Lines 30-47 of `main`, for the configuration that was selected: validation, the display
of the configuration, the dial.  What follows the dial depends on the broker's answers and
is not part of this trace. -/
def startup (config : RPCConfig) : List StartupEvent :=
  match config.Validate with
  | some err => [.fatal ("Invalid configuration: " ++ err)]
  | none =>
    [ .log (rule 10 ++ " RPC Server Configuration " ++ rule 10),
      .log ("RabbitMQ: " ++ config.RabbitMQ.Username ++ "@" ++ config.RabbitMQ.Host ++ ":" ++
            Itoa config.RabbitMQ.Port),
      .log ("Queue: " ++ config.Queue.Name),
      .log ("QoS Prefetch: " ++ Itoa config.QoS.PrefetchCount),
      .log ("Max Workers: " ++ Itoa config.RPC.MaxWorkers),
      .log (rule 46),
      .dial config.GetConnectionURL ]

/-- Lines 15-47 of `main` for the value `env` of the environment variable `APP_ENV`
(the empty string when it is not set). -/
def main (env : String) : List StartupEvent :=
  .log (selectConfig env).2 :: startup (selectConfig env).1

/-- The prefetch count handed to `ch.Qos` (lines 62-66). -/
def qosPrefetch (config : RPCConfig) : Int := config.QoS.PrefetchCount

/-- The number of permits put into `workerPool` (lines 85-88): the loop
`for i := 0; i < config.RPC.MaxWorkers; i++` sends one permit per iteration. -/
def poolSize (config : RPCConfig) : Nat := config.RPC.MaxWorkers.toNat

/-- The case the `select` statement of a worker takes (lines 128-151). -/
inductive SelectCase where
  /-- `case response := <-responseCh`: the handler's result was there first -/
  | response
  /-- `case <-time.After(config.RPC.ProcessTimeout)`: the timer fired first -/
  | timeout
deriving DecidableEq, Repr

/-- The worker goroutine started for one delivery (lines 111-152): the case its `select`
takes and the broker's answer to the publish (`none` is a nil error) are inputs; the
deferred release of the permit comes last. -/
def worker (sel : SelectCase) (publishErr : Option String) (d : Delivery) : List Effect :=
  [.log ("Received: " ++ d.Body)] ++
  (match sel with
    | .response =>
      [.publish "" d.ReplyTo false false
          { ContentType := "text/plain", CorrelationId := d.CorrelationId, ReplyTo := "",
            Body := "Processed: " ++ d.Body }] ++
      (match publishErr with
        | some err => [.log ("Failed to send response: " ++ err)]
        | none => []) ++
      [.ack d false]
    | .timeout => [.log "Request timeout", .nack d false false]) ++
  [.release]

/-! ### The dispatcher as a transition system

The dispatch loop (lines 107-154) starts one worker goroutine per delivery and every worker
starts one handler goroutine; each of them advances on its own.  The state records, per
delivery received so far, how far its worker and its handler have come. -/

/-- How the worker of a delivery has resolved it. -/
inductive Resolution where
  | acked
  | nacked
deriving DecidableEq, Repr

/-- Progress of one delivery that the dispatch loop has handed to a worker. -/
structure Job where
  /-- the delivery -/
  d : Delivery
  /-- the handler goroutine (lines 121-125) has sent its response and ended -/
  handlerDone : Bool
  /-- `none` while the worker waits at its `select`, then what it did with the delivery -/
  resolution : Option Resolution
  /-- the worker has not yet run its deferred `workerPool <- struct` -/
  permitHeld : Bool
deriving DecidableEq, Repr

/-- State of the dispatcher: the permits in `workerPool` and the jobs started so far. -/
structure Dispatcher where
  permits : Nat
  jobs : List Job
deriving DecidableEq, Repr

/-- The atomic steps of the dispatcher and its goroutines. -/
inductive Event where
  /-- the dispatch loop receives `d`, takes a permit (`<-workerPool`) and starts the worker,
  which starts the handler goroutine -/
  | receive (d : Delivery)
  /-- the handler goroutine of job `i` puts its response into `responseCh` and ends -/
  | handlerFinish (i : Nat)
  /-- the worker of job `i` takes `case response := <-responseCh`: publish, then `Ack` -/
  | takeResponse (i : Nat)
  /-- the timer of job `i` fires and the worker takes the timeout case: `Nack(false, false)` -/
  | timeoutFires (i : Nat)
  /-- the worker of job `i` returns: its deferred function puts the permit back -/
  | releasePermit (i : Nat)
deriving DecidableEq, Repr

/-- The state after `workerPool` has been filled (lines 85-88). -/
def Dispatcher.start (config : RPCConfig) : Dispatcher :=
  { permits := poolSize config, jobs := [] }

/-- One step; `none` when the event is not enabled in the state. -/
def Dispatcher.step (s : Dispatcher) : Event → Option Dispatcher
  | .receive d =>
    if 0 < s.permits then
      some { permits := s.permits - 1,
             jobs := s.jobs ++ [{ d := d, handlerDone := false, resolution := none,
                                  permitHeld := true }] }
    else none
  | .handlerFinish i =>
    match s.jobs[i]? with
    | some j =>
      if j.handlerDone then none
      else some { s with jobs := s.jobs.set i { j with handlerDone := true } }
    | none => none
  | .takeResponse i =>
    match s.jobs[i]? with
    | some j =>
      if j.handlerDone ∧ j.resolution = none then
        some { s with jobs := s.jobs.set i { j with resolution := some .acked } }
      else none
    | none => none
  | .timeoutFires i =>
    match s.jobs[i]? with
    | some j =>
      if j.resolution = none then
        some { s with jobs := s.jobs.set i { j with resolution := some .nacked } }
      else none
    | none => none
  | .releasePermit i =>
    match s.jobs[i]? with
    | some j =>
      if j.resolution ≠ none ∧ j.permitHeld then
        some { permits := s.permits + 1, jobs := s.jobs.set i { j with permitHeld := false } }
      else none
    | none => none

/-- A sequence of steps; `none` when one of them is not enabled. -/
def Dispatcher.run (s : Dispatcher) : List Event → Option Dispatcher
  | [] => some s
  | e :: es =>
    match s.step e with
    | some t => t.run es
    | none => none

/-- The number of deliveries whose handler goroutine has been started and has not finished. -/
def Dispatcher.handlersRunning (s : Dispatcher) : Nat :=
  (s.jobs.filter (fun j => !j.handlerDone)).length

/-- The number of deliveries whose worker goroutine still holds its permit. -/
def Dispatcher.workersActive (s : Dispatcher) : Nat :=
  (s.jobs.filter (fun j => j.permitHeld)).length

/-- The value `fib(n)` for a natural number `n`: the recursion of `fib` (lines 18-27) read on
the naturals, where it is structural, with the 64-bit wrap-around of the addition. -/
def fibNat : Nat → Int
  | 0 => 0
  | 1 => 1
  | n + 2 => wrapInt64 (fibNat (n + 1) + fibNat n)

/-- The effect resolves the delivery `d`: it is an `Ack` or a `Nack` of `d`. -/
def Effect.resolves (d : Delivery) : Effect → Bool
  | .ack x _ => x = d
  | .nack x _ _ => x = d
  | _ => false

/-! ## Lemmas on `Itoa` and `Atoi` -/

theorem digitVal_digitChar (d : Nat) (h : d < 10) : digitVal (Nat.digitChar d) = some d := by
  interval_cases d <;> rfl

theorem digitChar_ne_sign (d : Nat) (h : d < 10) :
    (Nat.digitChar d == '+') = false ∧ (Nat.digitChar d == '-') = false := by
  interval_cases d <;> exact ⟨rfl, rfl⟩

theorem parseDigits_append (xs ys : List Char) (n : Nat) :
    parseDigits (xs ++ ys) n = (parseDigits xs n).bind (fun m => parseDigits ys m) := by
  induction xs generalizing n with
  | nil => simp [parseDigits]
  | cons c cs ih =>
    simp only [List.cons_append, parseDigits]
    cases digitVal c with
    | none => simp
    | some d => simpa using ih (n * 10 + d)

theorem formatBits_acc (fuel u : Nat) (a : List Char) :
    formatBits fuel u a = formatBits fuel u [] ++ a := by
  induction fuel generalizing u a with
  | zero => simp [formatBits]
  | succ k ih =>
    simp only [formatBits]
    split
    · rw [ih (u / 10) (Nat.digitChar (u % 10) :: a), ih (u / 10) [Nat.digitChar (u % 10)]]
      simp
    · simp

theorem parseDigits_formatBits (fuel u : Nat) (h : u ≤ fuel) :
    parseDigits (formatBits fuel u []) 0 = some u := by
  induction fuel generalizing u with
  | zero =>
    have hu : u = 0 := by omega
    subst hu
    rfl
  | succ k ih =>
    simp only [formatBits]
    split
    · rename_i h10
      rw [formatBits_acc, parseDigits_append, ih (u / 10) (by omega)]
      simp only [Option.some_bind, parseDigits, digitVal_digitChar (u % 10) (by omega)]
      congr 1
      omega
    · rename_i h10
      simp only [parseDigits, digitVal_digitChar u (by omega)]
      simp

theorem formatBits_head (fuel u : Nat) (a : List Char) (h : u ≤ fuel) :
    ∃ d tl, d < 10 ∧ formatBits fuel u a = Nat.digitChar d :: tl := by
  induction fuel generalizing u a with
  | zero => exact ⟨u, a, by omega, rfl⟩
  | succ k ih =>
    simp only [formatBits]
    split
    · exact ih (u / 10) _ (by omega)
    · exact ⟨u, a, by omega, rfl⟩

/-- What `strconv.Itoa` prints, `strconv.Atoi` reads back, for every 64-bit `int`. -/
theorem Atoi_Itoa (r : Int) (hlo : minInt64 ≤ r) (hhi : r ≤ maxInt64) :
    Atoi (Itoa r) = some r := by
  obtain ⟨d, tl, hd, hfmt⟩ := formatBits_head r.natAbs r.natAbs [] (le_refl _)
  have hparse := parseDigits_formatBits r.natAbs r.natAbs (le_refl _)
  have hs := digitChar_ne_sign d hd
  unfold minInt64 at hlo
  unfold maxInt64 at hhi
  by_cases hneg : r < 0
  · have hdata : (Itoa r).data = '-' :: formatUint r.natAbs := by simp [Itoa, hneg]
    unfold Atoi
    rw [hdata]
    simp only [formatUint, beq_self_eq_true, Bool.or_true, if_true, hparse]
    rw [hfmt]
    simp only [List.isEmpty_cons, Bool.false_eq_true, if_false]
    rw [if_neg (by omega)]
    congr 1
    omega
  · have hdata : (Itoa r).data = formatUint r.natAbs := by simp [Itoa, hneg]
    unfold Atoi
    rw [hdata]
    simp only [formatUint]
    rw [hfmt]
    simp only [hs.1, hs.2, Bool.or_self, Bool.false_eq_true, if_false, List.isEmpty_cons]
    rw [← hfmt, hparse]
    simp only
    rw [if_neg (by omega)]
    congr 1
    omega

/-! ## Lemmas on the client loop and on `fib` -/

theorem fibonacciRPC_skip (c : String) (pre rest : List Delivery)
    (hpre : ∀ x ∈ pre, x.CorrelationId ≠ c) :
    fibonacciRPC c (pre ++ rest) = fibonacciRPC c rest := by
  induction pre with
  | nil => rfl
  | cons x xs ih =>
    have hx : ¬ c = x.CorrelationId := fun h => hpre x (List.mem_cons_self _ _) h.symm
    simp only [List.cons_append, fibonacciRPC, if_neg hx]
    exact ih (fun y hy => hpre y (List.mem_cons_of_mem _ hy))

theorem find_split (c : String) (msgs : List Delivery) (d : Delivery)
    (h : msgs.find? (fun x => decide (x.CorrelationId = c)) = some d) :
    ∃ pre post, msgs = pre ++ d :: post ∧ (∀ x ∈ pre, x.CorrelationId ≠ c) ∧
      d.CorrelationId = c := by
  induction msgs with
  | nil => simp at h
  | cons x xs ih =>
    by_cases hx : x.CorrelationId = c
    · simp only [List.find?, hx, decide_True, Option.some.injEq] at h
      subst h
      exact ⟨[], xs, rfl, by simp, hx⟩
    · simp only [List.find?, hx, decide_False] at h
      obtain ⟨pre, post, hsplit, hpre, hd⟩ := ih h
      refine ⟨x :: pre, post, by simp [hsplit], ?_, hd⟩
      intro y hy
      rcases List.mem_cons.mp hy with rfl | hy
      · exact hx
      · exact hpre y hy

theorem wrapInt64_of_range (x : Int) (hlo : minInt64 ≤ x) (hhi : x ≤ maxInt64) :
    wrapInt64 x = x := by
  unfold minInt64 at hlo
  unfold maxInt64 at hhi
  unfold wrapInt64
  omega

theorem fib_eq_fibNat (stack : Nat) (n : Nat) (hmax : (n : Int) ≤ maxInt64) (hstack : n < stack) :
    fib stack (n : Int) = some (fibNat n) := by
  induction stack generalizing n with
  | zero => omega
  | succ k ih =>
    match n with
    | 0 => simp [fib, fibNat]
    | 1 => simp [fib, fibNat]
    | m + 2 =>
      unfold maxInt64 at hmax
      have h0 : ¬ ((m + 2 : Nat) : Int) = 0 := by omega
      have h1 : ¬ ((m + 2 : Nat) : Int) = 1 := by omega
      have e1 : wrapInt64 (((m + 2 : Nat) : Int) - 1) = ((m + 1 : Nat) : Int) := by
        rw [wrapInt64_of_range _ (by unfold minInt64; omega) (by unfold maxInt64; omega)]
        omega
      have e2 : wrapInt64 (((m + 2 : Nat) : Int) - 2) = ((m : Nat) : Int) := by
        rw [wrapInt64_of_range _ (by unfold minInt64; omega) (by unfold maxInt64; omega)]
        omega
      simp only [fib, if_neg h0, if_neg h1, e1, e2]
      rw [ih (m + 1) (by unfold maxInt64; omega) (by omega),
        ih m (by unfold maxInt64; omega) (by omega)]
      simp [fibNat]

theorem consumeLoop_handled (stack : Nat) (d : Delivery) (rest : List (Delivery × Option String))
    (n v : Int) (hparse : Atoi d.Body = some n) (hfib : fib stack n = some v) :
    consumeLoop stack ((d, none) :: rest) =
      (.log (" [.] fib(" ++ Itoa n ++ ")") ::
        .publish "" d.ReplyTo false false
          { ContentType := "text/plain", CorrelationId := d.CorrelationId, ReplyTo := "",
            Body := Itoa v } ::
        .ack d false :: (consumeLoop stack rest).1, (consumeLoop stack rest).2) := by
  simp [consumeLoop, hparse, hfib]

/-! ## Lemmas on the dispatcher -/

theorem filter_set_length (p : Job → Bool) (jobs : List Job) (i : Nat) (j k : Job)
    (h : jobs[i]? = some j) :
    ((jobs.set i k).filter p).length + (if p j then 1 else 0) =
      (jobs.filter p).length + (if p k then 1 else 0) := by
  induction jobs generalizing i with
  | nil => simp at h
  | cons x xs ih =>
    cases i with
    | zero =>
      simp only [List.getElem?_cons_zero, Option.some.injEq] at h
      subst h
      simp only [List.set_cons_zero, List.filter_cons]
      cases p x <;> cases p k <;> simp
    | succ m =>
      simp only [List.getElem?_cons_succ] at h
      have := ih m h
      simp only [List.set_cons_succ, List.filter_cons]
      cases p x <;> simp <;> omega

theorem step_permits (s t : Dispatcher) (e : Event) (h : s.step e = some t) :
    t.permits + t.workersActive = s.permits + s.workersActive := by
  cases e with
  | receive d =>
    simp only [Dispatcher.step] at h
    split at h
    · rename_i hp
      simp only [Option.some.injEq] at h
      subst h
      simp [Dispatcher.workersActive, List.filter_append]
      omega
    · simp at h
  | handlerFinish i =>
    simp only [Dispatcher.step] at h
    split at h
    · rename_i j hj
      split at h
      · simp at h
      · simp only [Option.some.injEq] at h
        subst h
        have := filter_set_length (fun j => j.permitHeld) s.jobs i j
          { j with handlerDone := true } hj
        simp only [Dispatcher.workersActive]
        simp only at this
        omega
    · simp at h
  | takeResponse i =>
    simp only [Dispatcher.step] at h
    split at h
    · rename_i j hj
      split at h
      · simp only [Option.some.injEq] at h
        subst h
        have := filter_set_length (fun j => j.permitHeld) s.jobs i j
          { j with resolution := some .acked } hj
        simp only [Dispatcher.workersActive]
        simp only at this
        omega
      · simp at h
    · simp at h
  | timeoutFires i =>
    simp only [Dispatcher.step] at h
    split at h
    · rename_i j hj
      split at h
      · simp only [Option.some.injEq] at h
        subst h
        have := filter_set_length (fun j => j.permitHeld) s.jobs i j
          { j with resolution := some .nacked } hj
        simp only [Dispatcher.workersActive]
        simp only at this
        omega
      · simp at h
    · simp at h
  | releasePermit i =>
    simp only [Dispatcher.step] at h
    split at h
    · rename_i j hj
      split at h
      · rename_i hc
        simp only [Option.some.injEq] at h
        subst h
        have := filter_set_length (fun j => j.permitHeld) s.jobs i j
          { j with permitHeld := false } hj
        simp only [Dispatcher.workersActive]
        simp only [hc.2, if_true] at this
        simp only [Bool.false_eq_true, if_false] at this
        omega
      · simp at h
    · simp at h

theorem run_permits (s t : Dispatcher) (es : List Event) (h : s.run es = some t) :
    t.permits + t.workersActive = s.permits + s.workersActive := by
  induction es generalizing s with
  | nil =>
    simp only [Dispatcher.run, Option.some.injEq] at h
    subst h
    rfl
  | cons e es ih =>
    simp only [Dispatcher.run] at h
    split at h
    · rename_i u hu
      rw [ih u h, step_permits s u e hu]
    · simp at h

/-! ## The client's receive loop -/

/-- C1. Client correlation matching in `fibonacciRPC`: when `d` is the first delivery of the
reply stream `msgs` whose `CorrelationId` equals the call's correlation id `c`, and the body
of `d` is the decimal text (as printed by `strconv.Itoa`) of a 64-bit `int` `r`, the call
returns `(r, nil)`.  Deliveries with another correlation id in front of it are skipped:
putting any number of them before the stream leaves the result `(r, nil)`. -/
theorem fibonacciRPC_returns_first_match (c : String) (msgs : List Delivery) (d : Delivery)
    (r : Int) (hfirst : msgs.find? (fun x => decide (x.CorrelationId = c)) = some d)
    (hbody : d.Body = Itoa r) (hlo : minInt64 ≤ r) (hhi : r ≤ maxInt64) :
    fibonacciRPC c msgs = .returned r none ∧
      ∀ pre : List Delivery, (∀ x ∈ pre, x.CorrelationId ≠ c) →
        fibonacciRPC c (pre ++ msgs) = .returned r none := by
  obtain ⟨pre, post, hsplit, hpre, hd⟩ := find_split c msgs d hfirst
  have hmain : fibonacciRPC c msgs = .returned r none := by
    rw [hsplit, fibonacciRPC_skip c pre (d :: post) hpre]
    simp [fibonacciRPC, hd, hbody, Atoi_Itoa r hlo hhi]
  refine ⟨hmain, ?_⟩
  intro pre2 hpre2
  rw [fibonacciRPC_skip c pre2 msgs hpre2, hmain]

/-- C1, at a concrete input: the reply for the id `ABC` is found behind a delivery whose id
`abc` differs from it only in letter case. -/
theorem fibonacciRPC_returns_first_match_witness :
    fibonacciRPC "ABC" [⟨"abc", "", "7"⟩, ⟨"ABC", "", "8"⟩, ⟨"ABC", "", "9"⟩] = .returned 8 none :=
  (fibonacciRPC_returns_first_match "ABC" [⟨"abc", "", "7"⟩, ⟨"ABC", "", "8"⟩, ⟨"ABC", "", "9"⟩]
    ⟨"ABC", "", "8"⟩ 8 (by decide) (by decide) (by decide) (by decide)).1

/-- C3. In `fibonacciRPC`, a reply stream that ends without any delivery whose `CorrelationId`
equals the call's correlation id makes the call return `(0, nil)`: the value 0 with a nil
error, and not a non-nil error. -/
theorem fibonacciRPC_no_answer (c : String) (msgs : List Delivery)
    (hnone : ∀ x ∈ msgs, x.CorrelationId ≠ c) :
    fibonacciRPC c msgs = .returned 0 none := by
  have h := fibonacciRPC_skip c msgs [] hnone
  simpa [fibonacciRPC] using h

/-- C3, at a concrete input: the only reply carries another id and the call returns `(0, nil)`. -/
theorem fibonacciRPC_no_answer_witness :
    fibonacciRPC "ABC" [⟨"XYZ", "", "8"⟩] = .returned 0 none :=
  fibonacciRPC_no_answer "ABC" [⟨"XYZ", "", "8"⟩] (by decide)

/-! ## Replies of the two servers -/

/-- C2. Server reply correlation.  Fibonacci server: a delivery `d` that is handled with
success (its body is read by `Atoi` as `n`, `fib` returns `v`, the publish returns nil) gives
exactly one publish, on the default exchange with routing key `d.ReplyTo`, correlation id
`d.CorrelationId` and body the decimal text of `v`, followed by the `Ack` of `d`, and the loop
goes on with the rest.  For a body that is the decimal text of an `int` `n ≥ 0` (and a stack
deep enough for `n` nested calls) both conditions hold and `v` is `fib(n)`; the body `5`
gives the reply `5`.  Configurable server: a worker that takes the response case publishes
once, to `d.ReplyTo` with `d.CorrelationId` and the body `Processed: ` followed by the
request body, then sends the `Ack`, whatever the publish returned. -/
theorem server_reply_correlated :
    (∀ (stack : Nat) (d : Delivery) (rest : List (Delivery × Option String)) (n v : Int),
        Atoi d.Body = some n → fib stack n = some v →
        actions (consumeLoop stack ((d, none) :: rest)).1 =
          .publish "" d.ReplyTo false false
            { ContentType := "text/plain", CorrelationId := d.CorrelationId, ReplyTo := "",
              Body := Itoa v } ::
          .ack d false :: actions (consumeLoop stack rest).1) ∧
    (∀ (stack : Nat) (d : Delivery) (n : Nat), (n : Int) ≤ maxInt64 → n < stack →
        d.Body = Itoa n → Atoi d.Body = some (n : Int) ∧ fib stack n = some (fibNat n)) ∧
    (∀ (stack : Nat) (cid rto : String), 5 < stack →
        actions (consumeLoop stack [(⟨cid, rto, "5"⟩, none)]).1 =
          [.publish "" rto false false
              { ContentType := "text/plain", CorrelationId := cid, ReplyTo := "", Body := "5" },
            .ack ⟨cid, rto, "5"⟩ false]) ∧
    (∀ (d : Delivery) (publishErr : Option String),
        actions (worker .response publishErr d) =
          [.publish "" d.ReplyTo false false
              { ContentType := "text/plain", CorrelationId := d.CorrelationId, ReplyTo := "",
                Body := "Processed: " ++ d.Body },
            .ack d false, .release]) := by
  refine ⟨?_, ?_, ?_, ?_⟩
  · intro stack d rest n v hparse hfib
    rw [consumeLoop_handled stack d rest n v hparse hfib]
    simp [actions, Effect.isLog]
  · intro stack d n hmax hstack hbody
    refine ⟨?_, fib_eq_fibNat stack n hmax hstack⟩
    rw [hbody]
    exact Atoi_Itoa n (by unfold minInt64; omega) hmax
  · intro stack cid rto hstack
    have hparse : Atoi (Delivery.mk cid rto "5").Body = some 5 := by
      show Atoi "5" = some 5
      decide
    have hfib : fib stack 5 = some 5 := by
      have := fib_eq_fibNat stack 5 (by decide) hstack
      simpa [fibNat, wrapInt64] using this
    rw [consumeLoop_handled stack ⟨cid, rto, "5"⟩ [] 5 5 hparse hfib]
    have h5 : Itoa 5 = "5" := by decide
    simp [actions, Effect.isLog, consumeLoop, h5]
  · intro d publishErr
    cases publishErr <;> simp [worker, actions, Effect.isLog]

/-- C2, at a concrete input: the Fibonacci server answers the request `7` of the client
`amq.gen-1` with `13`. -/
theorem server_reply_correlated_witness :
    actions (consumeLoop 8 [(⟨"ABC", "amq.gen-1", "7"⟩, none)]).1 =
      [.publish "" "amq.gen-1" false false
          { ContentType := "text/plain", CorrelationId := "ABC", ReplyTo := "", Body := "13" },
        .ack ⟨"ABC", "amq.gen-1", "7"⟩ false] :=
  server_reply_correlated.1 8 ⟨"ABC", "amq.gen-1", "7"⟩ [] 7 13 (by decide) (by decide)

/-! ## The worker of the configurable server -/

/-- C4. Per-delivery worker outcome in the configurable server.  Leaving log lines aside, the
effects of a worker are `publish, Ack, release` when its `select` takes the response case and
`Nack(false, false), release` with no publish when it takes the timeout case.  In both cases
exactly one effect resolves the delivery, exactly one permit is released, and in the response
case the `Ack` is sent whatever error the publish returned. -/
theorem worker_outcome (sel : SelectCase) (publishErr : Option String) (d : Delivery) :
    (sel = .response →
      actions (worker sel publishErr d) =
        [.publish "" d.ReplyTo false false
            { ContentType := "text/plain", CorrelationId := d.CorrelationId, ReplyTo := "",
              Body := "Processed: " ++ d.Body },
          .ack d false, .release]) ∧
    (sel = .timeout → actions (worker sel publishErr d) = [.nack d false false, .release]) ∧
    ((worker sel publishErr d).filter (Effect.resolves d)).length = 1 ∧
    ((worker sel publishErr d).filter (fun e => decide (e = .release))).length = 1 ∧
    (sel = .response → .ack d false ∈ worker sel publishErr d ∧
      ∀ m r, .nack d m r ∉ worker sel publishErr d) ∧
    (sel = .timeout → .nack d false false ∈ worker sel publishErr d ∧
      ∀ m, .ack d m ∉ worker sel publishErr d) := by
  cases sel <;> cases publishErr <;>
    simp [worker, actions, Effect.isLog, Effect.resolves]

/-- C4, at a concrete input: the publish fails and the delivery is acknowledged all the same. -/
theorem worker_outcome_witness :
    actions (worker .response (some "channel closed") ⟨"ABC", "amq.gen-1", "7"⟩) =
      [.publish "" "amq.gen-1" false false
          { ContentType := "text/plain", CorrelationId := "ABC", ReplyTo := "",
            Body := "Processed: 7" },
        .ack ⟨"ABC", "amq.gen-1", "7"⟩ false, .release] :=
  (worker_outcome .response (some "channel closed") ⟨"ABC", "amq.gen-1", "7"⟩).1 rfl

/-! ## The permit pool -/

/-- C5, refuted as stated: with the five permits of `DevelopmentRPCConfig`, five deliveries
are received, the timeout of the first one fires and its worker returns the permit while its
handler is still running, and a sixth delivery is received: six handlers have been started
and have not finished. -/
theorem handlers_exceed_permits :
    ((Dispatcher.start DevelopmentRPCConfig).run
        [.receive ⟨"A", "q", "1"⟩, .receive ⟨"B", "q", "2"⟩, .receive ⟨"C", "q", "3"⟩,
          .receive ⟨"D", "q", "4"⟩, .receive ⟨"E", "q", "5"⟩, .timeoutFires 0,
          .releasePermit 0, .receive ⟨"F", "q", "6"⟩]).map Dispatcher.handlersRunning = some 6 ∧
      DevelopmentRPCConfig.RPC.MaxWorkers = 5 := by
  decide

/-- C5, amended.  Permit bound of the configurable server: in every state the dispatcher can
reach, the permits in the pool and the deliveries whose worker still holds its permit add up
to the size of the pool, so the number of deliveries whose worker has been started and has
not yet returned its permit is at most `RPC.MaxWorkers`. -/
theorem workers_within_permits (config : RPCConfig) (events : List Event) (s : Dispatcher)
    (hrun : (Dispatcher.start config).run events = some s) :
    s.permits + s.workersActive = poolSize config ∧
      s.workersActive ≤ poolSize config ∧
      (0 ≤ config.RPC.MaxWorkers → (s.workersActive : Int) ≤ config.RPC.MaxWorkers) := by
  have h := run_permits (Dispatcher.start config) s events hrun
  have h0 : (Dispatcher.start config).permits + (Dispatcher.start config).workersActive =
      poolSize config := by
    simp [Dispatcher.start, Dispatcher.workersActive]
  refine ⟨by omega, by omega, ?_⟩
  intro hpos
  have : ((poolSize config : Nat) : Int) = config.RPC.MaxWorkers := by
    unfold poolSize
    omega
  omega

/-- C5 amended, at a concrete input: after the run that starts six handlers, five workers
hold a permit and the pool is empty. -/
theorem workers_within_permits_witness :
    (0 : Nat) + 5 = poolSize DevelopmentRPCConfig ∧ 5 ≤ poolSize DevelopmentRPCConfig ∧
      (0 ≤ DevelopmentRPCConfig.RPC.MaxWorkers →
        ((5 : Nat) : Int) ≤ DevelopmentRPCConfig.RPC.MaxWorkers) :=
  workers_within_permits DevelopmentRPCConfig
    [.receive ⟨"A", "q", "1"⟩, .receive ⟨"B", "q", "2"⟩, .receive ⟨"C", "q", "3"⟩,
      .receive ⟨"D", "q", "4"⟩, .receive ⟨"E", "q", "5"⟩, .timeoutFires 0,
      .releasePermit 0, .receive ⟨"F", "q", "6"⟩]
    { permits := 0,
      jobs := [⟨⟨"A", "q", "1"⟩, false, some .nacked, false⟩, ⟨⟨"B", "q", "2"⟩, false, none, true⟩,
        ⟨⟨"C", "q", "3"⟩, false, none, true⟩, ⟨⟨"D", "q", "4"⟩, false, none, true⟩,
        ⟨⟨"E", "q", "5"⟩, false, none, true⟩, ⟨⟨"F", "q", "6"⟩, false, none, true⟩] }
    (by decide)

/-! ## Faults in the Fibonacci server -/

/-- C6, refuted as stated: the consume loop of the Fibonacci server receives a delivery with
the body `abc` and then one with the body `5`.  It panics on the first one with no effect at
all, so the first delivery is neither acknowledged nor rejected and the second one is never
processed. -/
theorem consumeLoop_stops_on_bad_body :
    consumeLoop 100 [(⟨"ABC", "amq.gen-1", "abc"⟩, none), (⟨"DEF", "amq.gen-2", "5"⟩, none)] =
      ([], .panicked "Failed to convert body to integer") := by
  decide

/-- C6, amended.  Fault handling in the Fibonacci server: a delivery whose body `Atoi` reads
as `n`, for which `fib` returns and whose publish returns nil, is resolved exactly once, by
an `Ack` after the publish, and the loop goes on with the next delivery; a delivery whose
body `Atoi` does not read makes `failOnError` panic with
`Failed to convert body to integer`: nothing is published, the delivery is not resolved and
no later delivery is processed. -/
theorem consumeLoop_fault_handling (stack : Nat) (d : Delivery) (publishErr : Option String)
    (rest : List (Delivery × Option String)) :
    (Atoi d.Body = none →
      consumeLoop stack ((d, publishErr) :: rest) =
        ([], .panicked "Failed to convert body to integer")) ∧
    (∀ n v : Int, Atoi d.Body = some n → fib stack n = some v →
      actions (consumeLoop stack ((d, none) :: rest)).1 =
          .publish "" d.ReplyTo false false
            { ContentType := "text/plain", CorrelationId := d.CorrelationId, ReplyTo := "",
              Body := Itoa v } ::
          .ack d false :: actions (consumeLoop stack rest).1 ∧
        (consumeLoop stack ((d, none) :: rest)).2 = (consumeLoop stack rest).2) := by
  constructor
  · intro hbad
    simp [consumeLoop, hbad]
  · intro n v hparse hfib
    rw [consumeLoop_handled stack d rest n v hparse hfib]
    exact ⟨by simp [actions, Effect.isLog], rfl⟩

/-- C6 amended, at a concrete input: the body `abc` stops the loop, whatever follows. -/
theorem consumeLoop_fault_handling_witness :
    consumeLoop 100 [(⟨"ABC", "amq.gen-1", "abc"⟩, none), (⟨"DEF", "amq.gen-2", "5"⟩, none)] =
      ([], .panicked "Failed to convert body to integer") :=
  (consumeLoop_fault_handling 100 ⟨"ABC", "amq.gen-1", "abc"⟩ none
    [(⟨"DEF", "amq.gen-2", "5"⟩, none)]).1 (by decide)

/-! ## Configuration of the configurable server -/

/-- C7. `Validate` rejects exactly the invalid configurations: it returns nil if and only if
the user name, the host and the queue name are not empty, the port is not 0 and `MaxWorkers`
is positive; an empty host, an empty queue name and a non-positive `MaxWorkers` each give an
error.  At startup the check comes before the dial: on an error `main` ends with
`log.Fatalf` and never dials, otherwise the dial follows the log lines. -/
theorem Validate_rejects_exactly (c : RPCConfig) :
    (c.Validate = none ↔
      c.RabbitMQ.Username ≠ "" ∧ c.RabbitMQ.Host ≠ "" ∧ c.RabbitMQ.Port ≠ 0 ∧
        c.Queue.Name ≠ "" ∧ 0 < c.RPC.MaxWorkers) ∧
    (c.RabbitMQ.Host = "" → c.Validate ≠ none) ∧
    (c.Queue.Name = "" → c.Validate ≠ none) ∧
    (c.RPC.MaxWorkers ≤ 0 → c.Validate ≠ none) ∧
    (∀ err, c.Validate = some err →
      startup c = [.fatal ("Invalid configuration: " ++ err)] ∧ ∀ url, .dial url ∉ startup c) ∧
    (c.Validate = none →
      ∃ logs : List StartupEvent, (∀ e ∈ logs, ∃ line, e = .log line) ∧
        startup c = logs ++ [.dial c.GetConnectionURL]) := by
  have hiff : c.Validate = none ↔
      c.RabbitMQ.Username ≠ "" ∧ c.RabbitMQ.Host ≠ "" ∧ c.RabbitMQ.Port ≠ 0 ∧
        c.Queue.Name ≠ "" ∧ 0 < c.RPC.MaxWorkers := by
    unfold RPCConfig.Validate
    constructor
    · intro h
      split_ifs at h with h1 h2 h3 h4 h5
      exact ⟨h1, h2, h3, h4, by omega⟩
    · rintro ⟨h1, h2, h3, h4, h5⟩
      rw [if_neg h1, if_neg h2, if_neg h3, if_neg h4, if_neg (by omega)]
  refine ⟨hiff, ?_, ?_, ?_, ?_, ?_⟩
  · intro h hv
    exact (hiff.mp hv).2.1 h
  · intro h hv
    exact (hiff.mp hv).2.2.2.1 h
  · intro h hv
    have := (hiff.mp hv).2.2.2.2
    omega
  · intro err herr
    have hs : startup c = [.fatal ("Invalid configuration: " ++ err)] := by
      simp [startup, herr]
    refine ⟨hs, ?_⟩
    intro url
    rw [hs]
    simp
  · intro hok
    refine ⟨[ .log (rule 10 ++ " RPC Server Configuration " ++ rule 10),
      .log ("RabbitMQ: " ++ c.RabbitMQ.Username ++ "@" ++ c.RabbitMQ.Host ++ ":" ++
            Itoa c.RabbitMQ.Port),
      .log ("Queue: " ++ c.Queue.Name),
      .log ("QoS Prefetch: " ++ Itoa c.QoS.PrefetchCount),
      .log ("Max Workers: " ++ Itoa c.RPC.MaxWorkers),
      .log (rule 46) ], ?_, ?_⟩
    · intro e he
      simp only [List.mem_cons, List.mem_singleton, List.not_mem_nil, or_false] at he
      rcases he with h | h | h | h | h | h
      all_goals exact ⟨_, h⟩
    · simp only [startup, hok]
      rfl

/-- C7, at a concrete input: the development configuration passes the check, and the same
configuration with an empty host does not. -/
theorem Validate_rejects_exactly_witness :
    DevelopmentRPCConfig.Validate = none ∧
      ({ DevelopmentRPCConfig with RabbitMQ.Host := "" } : RPCConfig).Validate ≠ none :=
  ⟨(Validate_rejects_exactly DevelopmentRPCConfig).1.mpr (by decide),
    (Validate_rejects_exactly { DevelopmentRPCConfig with RabbitMQ.Host := "" }).2.1 rfl⟩

/-- C8. Mode selection is total: for every value of `APP_ENV` a configuration is selected;
`production` selects `ProductionRPCConfig()`, `development` selects `DevelopmentRPCConfig()`
and every other string, among them the empty string and `Production`, selects
`DefaultRPCConfig()`. -/
theorem selectConfig_total (env : String) :
    (env = "production" → (selectConfig env).1 = ProductionRPCConfig) ∧
    (env = "development" → (selectConfig env).1 = DevelopmentRPCConfig) ∧
    (env ≠ "production" → env ≠ "development" → (selectConfig env).1 = DefaultRPCConfig) ∧
    (selectConfig "").1 = DefaultRPCConfig ∧
    (selectConfig "Production").1 = DefaultRPCConfig := by
  refine ⟨?_, ?_, ?_, by decide, by decide⟩
  · intro h
    simp [selectConfig, h]
  · intro h
    subst h
    simp [selectConfig]
  · intro h1 h2
    simp [selectConfig, h1, h2]

/-- C8, at a concrete input: the unknown mode `staging` selects the default configuration. -/
theorem selectConfig_total_witness : (selectConfig "staging").1 = DefaultRPCConfig :=
  (selectConfig_total "staging").2.2.1 (by decide) (by decide)

/-- C9. What the code does with the default configuration: `DefaultRPCConfig()` leaves
`RPC.MaxWorkers` at 0, `Validate` returns the error `MaxWorkers must be positive` on it, and a
server started with `APP_ENV` unset or unknown ends in `log.Fatalf` before any dial. -/
theorem default_config_fails_validation :
    DefaultRPCConfig.RPC.MaxWorkers = 0 ∧
      DefaultRPCConfig.Validate = some "MaxWorkers must be positive" ∧
      main "" =
        [.log "Using DEFAULT configuration",
          .fatal "Invalid configuration: MaxWorkers must be positive"] ∧
      main "staging" =
        [.log "Using DEFAULT configuration",
          .fatal "Invalid configuration: MaxWorkers must be positive"] := by
  decide

/-- C10, refuted as stated: in production mode the prefetch count handed to `Qos` is 10 and
the permit pool has 100 permits. -/
theorem production_prefetch_differs :
    qosPrefetch ProductionRPCConfig = 10 ∧ ProductionRPCConfig.RPC.MaxWorkers = 100 ∧
      qosPrefetch ProductionRPCConfig ≠ ProductionRPCConfig.RPC.MaxWorkers := by
  decide

/-- C10, amended.  Broker prefetch and local permit count: in development mode the prefetch
count handed to `Qos` equals `RPC.MaxWorkers`, both 5; in production mode the prefetch count
is 10 and `RPC.MaxWorkers` is 100, so the prefetch count does not exceed the size of the
permit pool. -/
theorem prefetch_and_permits :
    qosPrefetch DevelopmentRPCConfig = DevelopmentRPCConfig.RPC.MaxWorkers ∧
      qosPrefetch DevelopmentRPCConfig = 5 ∧ poolSize DevelopmentRPCConfig = 5 ∧
      qosPrefetch ProductionRPCConfig = 10 ∧ ProductionRPCConfig.RPC.MaxWorkers = 100 ∧
      poolSize ProductionRPCConfig = 100 ∧
      qosPrefetch ProductionRPCConfig ≤ ProductionRPCConfig.RPC.MaxWorkers := by
  decide

/-! ## The handler `fib` and the Fibonacci numbers -/

theorem wrapInt64_add_wrap (a b : Int) :
    wrapInt64 (wrapInt64 a + wrapInt64 b) = wrapInt64 (a + b) := by
  unfold wrapInt64
  omega

theorem fibNat_eq_wrap (n : Nat) :
    fibNat n = wrapInt64 (Nat.fib n) ∧ fibNat (n + 1) = wrapInt64 (Nat.fib (n + 1)) := by
  induction n with
  | zero => exact ⟨by decide, by decide⟩
  | succ k ih =>
    refine ⟨ih.2, ?_⟩
    have hrec : fibNat (k + 1 + 1) = wrapInt64 (fibNat (k + 1) + fibNat k) := by
      simp [fibNat]
    rw [hrec, ih.1, ih.2, wrapInt64_add_wrap, Nat.fib_add_two]
    push_cast
    congr 1
    ring

theorem fib_le_fib_92 (n : Nat) (h : n ≤ 92) : Nat.fib n ≤ 7540113804746346429 := by
  have h92 : Nat.fib 92 = 7540113804746346429 := by norm_num [Nat.fib_add_two]
  calc Nat.fib n ≤ Nat.fib 92 := Nat.fib_mono h
    _ = 7540113804746346429 := h92

/-- C11. The handler `fib` computes the Fibonacci numbers: for every `int` `n ≥ 0` the
recursion returns as soon as the stack allows `n + 1` nested calls, and it returns the `n`-th
Fibonacci number reduced modulo `2^64` as a signed value, which for `n ≤ 92` is the `n`-th
Fibonacci number itself (for `n = 93` it is not: the addition overflows).  In particular
`fib(0) = 0`, `fib(1) = 1` and `fib(5) = 5`. -/
theorem fib_computes_fibonacci (n : Nat) (hmax : (n : Int) ≤ maxInt64) :
    (∀ stack : Nat, n < stack → fib stack n = some (wrapInt64 (Nat.fib n))) ∧
    (n ≤ 92 → ∀ stack : Nat, n < stack → fib stack n = some (Nat.fib n : Int)) ∧
    (∀ stack : Nat, 0 < stack → fib stack 0 = some 0) ∧
    (∀ stack : Nat, 1 < stack → fib stack 1 = some 1) ∧
    (∀ stack : Nat, 5 < stack → fib stack 5 = some 5) ∧
    (∀ stack : Nat, 93 < stack →
      fib stack 93 = some (-6246583658587674878) ∧ (Nat.fib 93 : Int) = 12200160415121876738) := by
  have hgen : ∀ (m : Nat), (m : Int) ≤ maxInt64 → ∀ stack : Nat, m < stack →
      fib stack m = some (wrapInt64 (Nat.fib m)) := by
    intro m hm stack hstack
    rw [fib_eq_fibNat stack m hm hstack, (fibNat_eq_wrap m).1]
  refine ⟨hgen n hmax, ?_, ?_, ?_, ?_, ?_⟩
  · intro h92 stack hstack
    rw [hgen n hmax stack hstack]
    have hle := fib_le_fib_92 n h92
    rw [wrapInt64_of_range _ (by unfold minInt64; omega) (by unfold maxInt64; omega)]
  · intro stack hstack
    have := hgen 0 (by decide) stack hstack
    simpa [wrapInt64] using this
  · intro stack hstack
    have := hgen 1 (by decide) stack hstack
    simpa [wrapInt64] using this
  · intro stack hstack
    have := hgen 5 (by decide) stack hstack
    have h5 : Nat.fib 5 = 5 := by decide
    rw [h5] at this
    simpa [wrapInt64] using this
  · intro stack hstack
    have h93 : Nat.fib 93 = 12200160415121876738 := by norm_num [Nat.fib_add_two]
    have := hgen 93 (by decide) stack hstack
    rw [h93] at this
    refine ⟨?_, by rw [h93]; rfl⟩
    rw [show ((93 : Nat) : Int) = 93 from rfl] at this
    rw [this]
    decide

/-- C11, at a concrete input: with a stack for 93 nested calls `fib(92)` is the 92nd
Fibonacci number, the largest one a 64-bit `int` holds. -/
theorem fib_computes_fibonacci_witness :
    ((92 : Nat) : Int) ≤ maxInt64 ∧ fib 93 ((92 : Nat) : Int) = some (Nat.fib 92 : Int) :=
  ⟨by decide, (fib_computes_fibonacci 92 (by decide)).2.1 (by decide) 93 (by decide)⟩

/-! ## The correlation id of the client -/

theorem byte_randInt (src : RandSource) (hsrc : ValidSource src) (i : Nat) :
    ∃ v : Nat, v < 25 ∧ src i 25 = (v : Int) ∧ byte (randInt (src i) 65 90) = 65 + v := by
  obtain ⟨h0, h25⟩ := hsrc i 25 (by decide)
  have hbound : wrapInt64 (90 - 65) = 25 := by decide
  refine ⟨(src i 25).toNat, by omega, by omega, ?_⟩
  unfold byte randInt
  rw [hbound]
  unfold wrapInt64
  omega

theorem letter_of_nat (n : Nat) (hlo : 65 ≤ n) (hhi : n ≤ 89) :
    (Char.ofNat n).toNat = n ∧ (Char.ofNat n).utf8Size = 1 ∧ (Char.ofNat n).isUpper = true := by
  interval_cases n <;> exact ⟨rfl, rfl, rfl⟩

theorem utf8ByteSize_go_ascii (cs : List Char) (h : ∀ c ∈ cs, c.utf8Size = 1) :
    String.utf8ByteSize.go cs = cs.length := by
  induction cs with
  | nil => rfl
  | cons c cs ih =>
    simp only [String.utf8ByteSize.go, List.length_cons]
    rw [ih (fun x hx => h x (List.mem_cons_of_mem _ hx)), h c (List.mem_cons_self _ _)]

theorem randomString_chars (src : RandSource) (hsrc : ValidSource src) (l : Nat) (c : Char)
    (hc : c ∈ (randomString src l).data) :
    65 ≤ c.toNat ∧ c.toNat ≤ 89 ∧ c.utf8Size = 1 ∧ c.isUpper = true := by
  simp only [randomString, List.mem_map, List.mem_range] at hc
  obtain ⟨i, _, hi⟩ := hc
  obtain ⟨v, hv, _, hbyte⟩ := byte_randInt src hsrc i
  rw [hbyte] at hi
  have hl := letter_of_nat (65 + v) (by omega) (by omega)
  rw [← hi, hl.1]
  exact ⟨by omega, by omega, hl.2.1, hl.2.2⟩

theorem fixedSource_valid (choice : Nat → Nat) : ValidSource (fixedSource choice) := by
  intro i k hk
  exact ⟨Int.emod_nonneg _ (by omega), Int.emod_lt_of_pos _ hk⟩

theorem randomString_fixedSource_inj (l : Nat) (f g : Nat → Nat)
    (hf : ∀ i, f i < 25) (hg : ∀ i, g i < 25)
    (h : randomString (fixedSource f) l = randomString (fixedSource g) l) :
    ∀ i, i < l → f i = g i := by
  intro i hi
  have hdata := congrArg String.data h
  simp only [randomString] at hdata
  have hmap := (List.map_inj_left.mp hdata) i (List.mem_range.mpr hi)
  obtain ⟨v, hv, hvf, hbf⟩ := byte_randInt (fixedSource f) (fixedSource_valid f) i
  obtain ⟨w, hw, hwg, hbg⟩ := byte_randInt (fixedSource g) (fixedSource_valid g) i
  simp only at hmap
  rw [hbf, hbg] at hmap
  have h1 := congrArg Char.toNat hmap
  rw [(letter_of_nat (65 + v) (by omega) (by omega)).1,
    (letter_of_nat (65 + w) (by omega) (by omega)).1] at h1
  have hfi := hf i
  have hgi := hg i
  simp only [fixedSource] at hvf hwg
  omega

theorem image_of_choices (F : (Fin 32 → Fin 25) → String) (hinj : Function.Injective F) :
    ∃ S : Finset String, S.card = 25 ^ 32 ∧ ∀ s ∈ S, ∃ f, F f = s := by
  refine ⟨Finset.image F Finset.univ, ?_, ?_⟩
  · rw [Finset.card_image_of_injective _ hinj, Finset.card_univ, Fintype.card_fun,
      Fintype.card_fin, Fintype.card_fin]
  · simp only [Finset.forall_image, Finset.mem_univ, true_implies]
    exact fun f => ⟨f, rfl⟩

/-- C12. Correlation-id space: for every outcome of the random source that respects the
contract of `rand.Intn`, `randomString(32)` is a string of exactly 32 characters, each of one
byte and each an uppercase ASCII letter (code 65 to 90), and there is a set of at least
`2^128` distinct strings (of `25^32`, in fact) each of which `randomString(32)` returns for
some outcome of the random source. -/
theorem randomString_id_space :
    (∀ src : RandSource, ValidSource src →
      (randomString src 32).length = 32 ∧ (randomString src 32).utf8ByteSize = 32 ∧
        ∀ c ∈ (randomString src 32).data, c.isUpper = true ∧ 65 ≤ c.toNat ∧ c.toNat ≤ 90) ∧
    (∃ S : Finset String, S.card = 25 ^ 32 ∧ 2 ^ 128 ≤ S.card ∧
      ∀ s ∈ S, ∃ src : RandSource, ValidSource src ∧ randomString src 32 = s) := by
  constructor
  · intro src hsrc
    have hlen : (randomString src 32).data.length = 32 := by simp [randomString]
    refine ⟨hlen, ?_, ?_⟩
    · have hgo := utf8ByteSize_go_ascii (randomString src 32).data
        (fun c hc => (randomString_chars src hsrc 32 c hc).2.2.1)
      rw [hlen] at hgo
      exact hgo
    · intro c hc
      have h := randomString_chars src hsrc 32 c hc
      exact ⟨h.2.2.2, h.1, by omega⟩
  · have hinj : Function.Injective (fun f : Fin 32 → Fin 25 =>
        randomString (fixedSource (fun i => if h : i < 32 then (f ⟨i, h⟩).val else 0)) 32) := by
      intro f g hfg
      have hall := randomString_fixedSource_inj 32 _ _
        (fun i => by split <;> omega) (fun i => by split <;> omega) hfg
      funext x
      have hx := hall x.val x.isLt
      simp only [x.isLt, dif_pos] at hx
      exact Fin.ext hx
    obtain ⟨S, hcard, hS⟩ := image_of_choices _ hinj
    refine ⟨S, hcard, ?_, ?_⟩
    · rw [hcard]
      norm_num
    · intro s hs
      obtain ⟨f, hf⟩ := hS s hs
      exact ⟨fixedSource (fun i => if h : i < 32 then (f ⟨i, h⟩).val else 0),
        fixedSource_valid _, hf⟩

/-- C12, at a concrete input: when every call of `rand.Intn(25)` returns 24, the id is 32
times the letter `Y`. -/
theorem randomString_id_space_witness :
    (randomString (fixedSource (fun _ => 24)) 32).length = 32 ∧
      (randomString (fixedSource (fun _ => 24)) 32).utf8ByteSize = 32 ∧
      ∀ c ∈ (randomString (fixedSource (fun _ => 24)) 32).data,
        c.isUpper = true ∧ 65 ≤ c.toNat ∧ c.toNat ≤ 90 :=
  randomString_id_space.1 (fixedSource (fun _ => 24)) (fixedSource_valid _)

end RabbitRPC
